import Mathlib

/-!
Verification of the GS1 identifier core of the logistic-label-simple
repository: check-digit computation, GTIN/SSCC validation, SSCC generation,
GS1 date/weight field formatting, and AI element-string assembly.

The JavaScript source lives in `src/lib/utils/gs1Utils.js` and
`src/lib/gs1Utils.js`. Strings are modelled as Lean `String`, JS numbers
used as digit counts as `Nat`, JS numeric values fed to `formatGS1Weight`
as exact rationals, `Math.random()` draws as explicit inputs, thrown
exceptions as `Except`, and `console.warn` output as an explicit list of
warnings. `Number.prototype.toString` (base 10) is embedded as
`jsNatToString`.
-/

namespace GS1

/-- Numeric value of an ASCII digit character; embeds JS `parseInt(d)` for a
single digit character `d`. -/
def digitVal (c : Char) : Nat := c.toNat - 48

/-- Embeds the JS regex test `/^\d+$/.test(s)`: `s` is non-empty and all its
characters are ASCII digits. -/
def isDigitString (s : String) : Bool := !s.data.isEmpty && s.data.all Char.isDigit

/-- Fuel-driven helper for `natDigits`; the fuel only forces termination and
is irrelevant once it is at least the argument (`natDigitsGo_fuel`). -/
def natDigitsGo : Nat → Nat → List Char
  | 0, n => [Nat.digitChar (n % 10)]
  | f + 1, n =>
      if n < 10 then [Nat.digitChar n]
      else natDigitsGo f (n / 10) ++ [Nat.digitChar (n % 10)]

/-- Decimal digit characters of `n`, most significant first; the characters of
JS `n.toString()` for a non-negative integer `n`. -/
def natDigits (n : Nat) : List Char := natDigitsGo n n

/-- Embeds JS `n.toString()` for a non-negative number `n`. -/
def jsNatToString (n : Nat) : String := String.mk (natDigits n)

/-- Embeds JS `i.toString()` for an integer `i` (possibly negative). -/
def jsIntToString (i : Int) : String :=
  if i < 0 then "-" ++ jsNatToString i.natAbs else jsNatToString i.natAbs

/-- Embeds JS `String.prototype.padStart(n, c)`. -/
def jsPadStart (s : String) (n : Nat) (c : Char) : String :=
  String.mk (List.replicate (n - s.length) c) ++ s

/-- Embeds JS `String.prototype.endsWith(t)`. -/
def jsEndsWith (s t : String) : Bool := t.data.isSuffixOf s.data

/-- The running sum of the `forEach` loops of `calculateGS1CheckDigit`,
`validateGTIN` (utils copy) and `validateSSCC`: the digit at each even
0-based index counts 3 times, the digit at each odd index once.  The first
argument is the index of the first list element. -/
def weightedSumFrom : Nat → List Nat → Nat
  | _, [] => 0
  | i, d :: ds => (if i % 2 = 0 then 3 * d else d) + weightedSumFrom (i + 1) ds

/-- The running sum of the `forEach` loop of `validateGTIN` in
`src/lib/gs1Utils.js`, whose multiplier line reads
`index % 2 === 0 ? 1 : 3`: even indices count once, odd indices 3 times. -/
def weightedSumFromLib : Nat → List Nat → Nat
  | _, [] => 0
  | i, d :: ds => (if i % 2 = 0 then d else 3 * d) + weightedSumFromLib (i + 1) ds

/-- The value `(10 - (sum % 10)) % 10` computed by `calculateGS1CheckDigit`
on an already-checked digit string. -/
def checkDigitOf (s : String) : Nat :=
  (10 - (weightedSumFrom 0 (s.data.map digitVal)) % 10) % 10

/-- `calculateGS1CheckDigit` of `src/lib/utils/gs1Utils.js` lines 133-151
(the copy in `src/lib/gs1Utils.js` lines 41-59 is identical): throws unless
the argument matches `/^\d+$/`, otherwise returns the Mod-10 weighted check
digit.  The throw is modelled as `Except.error`. -/
def calculateGS1CheckDigit (digits : String) : Except String Nat :=
  if isDigitString digits then Except.ok (checkDigitOf digits)
  else Except.error "Input must be a string of digits"

/-- `validateGTIN` of `src/lib/utils/gs1Utils.js` lines 13-35: 14 digits,
then the popped last digit is compared with the recomputed check digit of
the first 13 (even 0-based index weighted 3). -/
def validateGTIN (gtin : String) : Bool :=
  if (gtin.length == 14) && gtin.data.all Char.isDigit then
    let ds := gtin.data.map digitVal
    let checkDigit := ds.getLastD 0
    let rest := ds.dropLast
    (10 - (weightedSumFrom 0 rest) % 10) % 10 == checkDigit
  else false

/-- `validateGTIN` of `src/lib/gs1Utils.js` lines 67-89: identical to the
utils copy except that its multiplier line reads
`index % 2 === 0 ? 1 : 3`, weighting even 0-based indices by 1. -/
def validateGTIN_lib (gtin : String) : Bool :=
  if (gtin.length == 14) && gtin.data.all Char.isDigit then
    let ds := gtin.data.map digitVal
    let checkDigit := ds.getLastD 0
    let rest := ds.dropLast
    (10 - (weightedSumFromLib 0 rest) % 10) % 10 == checkDigit
  else false

/-- `validateSSCC` of `src/lib/utils/gs1Utils.js` lines 291-311: 18 digits,
and the digit at index 17 equals the recomputed check digit of the first 17
(even 0-based index weighted 3). -/
def validateSSCC (sscc : String) : Bool :=
  if (sscc.length == 18) && sscc.data.all Char.isDigit then
    let ds := (sscc.data.take 17).map digitVal
    let checkDigit := digitVal (sscc.data.getD 17 '0')
    (10 - (weightedSumFrom 0 ds) % 10) % 10 == checkDigit
  else false

/-- The weighted sum written positionally, independently of the loop shape:
the digit at every even 0-based index is weighted 3, at every odd index 1. -/
def specWeightedSum (l : List Nat) : Nat :=
  ∑ j ∈ Finset.range l.length, (if j % 2 = 0 then 3 else 1) * l.getD j 0

/-- The pseudo-random draws consumed by `generateSSCC`, made explicit: the
value of `Math.floor(1000000 + Math.random() * 9000000)`, the value of the
extension-digit draw `Math.floor(Math.random() * 10)`, and the stream of
serial-reference draws `Math.floor(Math.random() * 10)`.  The two digit
draws always land in `[0, 9]`, which `Fin 10` records. -/
structure RandomDraws where
  rpfx : Nat
  rext : Fin 10
  rdigit : Nat → Fin 10

/-- The `prefix` line of `generateSSCC`: `companyPrefix || random`, where the
JS `||` also replaces the falsy empty string by the random draw. -/
def buildPfx (companyPrefix : Option String) (r : RandomDraws) : String :=
  match companyPrefix with
  | some p => if p = "" then jsNatToString r.rpfx else p
  | none => jsNatToString r.rpfx

/-- The `extension` line of `generateSSCC`:
`extensionDigit !== null ? extensionDigit.toString() : random`. -/
def buildExt (extensionDigit : Option Nat) (r : RandomDraws) : String :=
  match extensionDigit with
  | some e => jsNatToString e
  | none => jsNatToString r.rext.val

/-- The `serialReference` loop of `generateSSCC`: `n` random digits. -/
def serialRef (r : RandomDraws) (n : Nat) : String :=
  String.mk ((List.range n).map fun i => Nat.digitChar (r.rdigit i).val)

/-- The `ssccWithoutCheck` string of `generateSSCC`:
`extension + prefix + serialReference`, where
`serialLength = 17 - prefix.length - 1` (a JS number, possibly negative, in
which case the loop body never runs). -/
def ssccBase (companyPrefix : Option String) (extensionDigit : Option Nat)
    (r : RandomDraws) : String :=
  buildExt extensionDigit r ++ buildPfx companyPrefix r ++
    serialRef r ((17 - ((buildPfx companyPrefix r).length : Int) - 1).toNat)

/-- `generateSSCC` of `src/lib/utils/gs1Utils.js` lines 58-80 (the copy in
`src/lib/gs1Utils.js` lines 11-33 is identical): assembles
`ssccWithoutCheck` and appends `calculateGS1CheckDigit` of it; an exception
thrown by the check-digit computation propagates.  The function performs no
other validation. -/
def generateSSCC (companyPrefix : Option String) (extensionDigit : Option Nat)
    (r : RandomDraws) : Except String String :=
  match calculateGS1CheckDigit (ssccBase companyPrefix extensionDigit r) with
  | Except.ok cd => Except.ok (ssccBase companyPrefix extensionDigit r ++ jsNatToString cd)
  | Except.error e => Except.error e

/-- Concrete draws used by closed evaluation theorems. -/
def rZero : RandomDraws := ⟨1000000, 0, fun _ => 0⟩

/-- The local calendar fields of a JS `Date` as read by `formatGS1Date`:
`getFullYear()` (non-negative years), `getMonth()` (0-based) and
`getDate()`. -/
structure JSDate where
  fullYear : Nat
  month0 : Nat
  day : Nat

/-- Embeds JS `String.prototype.slice(-2)`. -/
def jsSliceLast2 (s : String) : String := String.mk (s.data.drop (s.data.length - 2))

/-- `formatGS1Date` of `src/lib/utils/gs1Utils.js` lines 88-102.  The falsy
check `if (!date) return ''`, the `new Date(...)` parse and the
`isNaN(dateObj.getTime())` check are modelled together by the `Option`:
`none` stands for a falsy or unparseable argument, `some d` for a valid
date with local calendar fields `d`. -/
def formatGS1Date (date : Option JSDate) : String :=
  match date with
  | none => ""
  | some d =>
      jsSliceLast2 (jsNatToString d.fullYear) ++
      jsPadStart (jsNatToString (d.month0 + 1)) 2 '0' ++
      jsPadStart (jsNatToString d.day) 2 '0'

/-- Embeds JS `Math.round` on an exact rational: `floor(q + 1/2)` (JS rounds
half toward positive infinity). -/
def jsRound (q : Rat) : Int := ⌊q + 1 / 2⌋

/-- `formatGS1Weight` of `src/lib/utils/gs1Utils.js` lines 112-125.  The
argument models `parseFloat(weight)`: `none` when `weight` is
null/undefined or parses to NaN, `some q` for a numeric value, taken as an
exact rational. -/
def formatGS1Weight (weight : Option Rat) (decimalPlaces : Nat) : String :=
  match weight with
  | none => "000000"
  | some w => jsPadStart (jsIntToString (jsRound (w * (10 : Rat) ^ decimalPlaces))) 6 '0'

/-- The fixed list of variable-length AIs of `isVariableLengthAI`
(`src/lib/utils/gs1Utils.js` lines 188-199). -/
def variableLengthAIs : List String :=
  ["00", "01", "02", "10", "11", "12", "13", "15", "17", "20",
   "21", "22", "30", "37", "90", "91", "92", "93", "94", "95",
   "96", "97", "98", "99"]

/-- `isVariableLengthAI` of `src/lib/utils/gs1Utils.js`. -/
def isVariableLengthAI (ai : String) : Bool := variableLengthAIs.contains ai

/-- `createGS1DataMatrix` of `src/lib/utils/gs1Utils.js` lines 159-181.
The JS object is modelled as the ordered list of its key/value entries;
`none` models a null/undefined value (skipped).  The separator is appended
when the element's position among ALL keys (skipped ones included) is not
the last one and its AI is variable-length. -/
def createGS1DataMatrix (dataElements : List (String × Option String)) : String :=
  String.join (dataElements.enum.map (fun p =>
    match p.2.2 with
    | none => ""
    | some v =>
        "(" ++ p.2.1 ++ ")" ++ v ++
          (if decide (p.1 < dataElements.length - 1) && isVariableLengthAI p.2.1
           then "<GS>" else "")))

/-- Embeds JS `String.prototype.toUpperCase()` on ASCII data: uppercases
each character. -/
def jsToUpper (s : String) : String := String.mk (s.data.map Char.toUpper)

/-- The host-dependent pieces used by `createGS1BarcodeString`: the result
of `new Date(value)` (local calendar fields, `none` when invalid) and of
`parseFloat(value)` (`none` for NaN). -/
structure JSEnv where
  parseDate : String → Option JSDate
  parseNum : String → Option Rat

/-- The keys recognised by the `switch` of `createGS1BarcodeString`. -/
def knownGS1Keys : List String :=
  ["SSCC", "GTIN", "CONTENT_GTIN", "BATCH_LOT", "PROD_DATE", "EXP_DATE",
   "QTY", "WEIGHT_KG", "WEIGHT_LB"]

/-- One loop iteration of `createGS1BarcodeString` for a non-null value:
the emitted piece (switch body plus the variable-length separator that the
code appends after the switch) and the optional `console.warn` message of
the default branch for a non-numeric unknown key. -/
def cgbsElem (env : JSEnv) (key : String) (value : String) : String × Option String :=
  let ai := jsToUpper key
  let main : Option String :=
    if ai = "SSCC" then some ("(00)" ++ value)
    else if ai = "GTIN" then some ("(01)" ++ value)
    else if ai = "CONTENT_GTIN" then some ("(02)" ++ value)
    else if ai = "BATCH_LOT" then some ("(10)" ++ value)
    else if ai = "PROD_DATE" then some ("(11)" ++ formatGS1Date (env.parseDate value))
    else if ai = "EXP_DATE" then some ("(17)" ++ formatGS1Date (env.parseDate value))
    else if ai = "QTY" then some ("(37)" ++ jsPadStart value 6 '0')
    else if ai = "WEIGHT_KG" then some ("(3103)" ++ formatGS1Weight (env.parseNum value) 3)
    else if ai = "WEIGHT_LB" then some ("(3201)" ++ formatGS1Weight (env.parseNum value) 1)
    else if isDigitString ai then some ("(" ++ ai ++ ")" ++ value)
    else none
  match main with
  | some piece => (piece ++ (if isVariableLengthAI ai then "<GS>" else ""), none)
  | none => ((if isVariableLengthAI ai then "<GS>" else ""),
      some ("Unknown GS1 AI: " ++ ai))

/-- One loop iteration of `createGS1BarcodeString`: null values are skipped
(`continue`), otherwise the element's piece is appended to the accumulated
string and its warning, if any, to the accumulated warning log. -/
def assembleStep (env : JSEnv) (acc : String × List String)
    (kv : String × Option String) : String × List String :=
  match kv.2 with
  | none => acc
  | some v =>
      let pw := cgbsElem env kv.1 v
      (acc.1 ++ pw.1, acc.2 ++ pw.2.toList)

/-- The loop of `createGS1BarcodeString` before the trailing-separator
strip. -/
def assembleRaw (env : JSEnv) (data : List (String × Option String)) :
    String × List String :=
  data.foldl (assembleStep env) ("", [])

/-- `createGS1BarcodeString` of `src/lib/utils/gs1Utils.js` lines 217-283.
The JS object is the ordered list of its entries, values modelled as JS
strings; the returned pair is the barcode string and the `console.warn`
log. -/
def createGS1BarcodeString (env : JSEnv) (data : List (String × Option String)) :
    String × List String :=
  let sw := assembleRaw env data
  (if jsEndsWith sw.1 "<GS>"
    then String.mk (sw.1.data.take (sw.1.data.length - 4)) else sw.1, sw.2)

/-- A concrete environment for closed evaluation theorems: every value is
unparseable as a date and NaN as a number. -/
def envW : JSEnv := ⟨fun _ => none, fun _ => none⟩

/-! Basic facts about the decimal-string embedding. -/

theorem natDigitsGo_fuel : ∀ f g n : Nat, n ≤ f → n ≤ g → natDigitsGo f n = natDigitsGo g n := by
  intro f
  induction f with
  | zero =>
    intro g n hf hg
    have hn : n = 0 := by omega
    subst hn
    cases g with
    | zero => rfl
    | succ g => simp [natDigitsGo]
  | succ f ih =>
    intro g n hf hg
    cases g with
    | zero =>
      have hn : n = 0 := by omega
      subst hn
      simp [natDigitsGo]
    | succ g =>
      by_cases h : n < 10
      · simp [natDigitsGo, h]
      · have hlt : n / 10 < n := Nat.div_lt_self (by omega) (by omega)
        simp only [natDigitsGo, h, if_false]
        rw [ih g (n / 10) (by omega) (by omega)]

theorem natDigits_eq (n : Nat) :
    natDigits n = if n < 10 then [Nat.digitChar n]
      else natDigits (n / 10) ++ [Nat.digitChar (n % 10)] := by
  by_cases h : n < 10
  · simp only [h, if_true]
    cases n with
    | zero => rfl
    | succ m => simp [natDigits, natDigitsGo, h]
  · simp only [h, if_false]
    obtain ⟨m, rfl⟩ : ∃ m, n = m + 1 := ⟨n - 1, by omega⟩
    have hlt : (m + 1) / 10 < m + 1 := Nat.div_lt_self (by omega) (by omega)
    show natDigitsGo (m + 1) (m + 1) = _
    simp only [natDigitsGo, h, if_false]
    rw [natDigitsGo_fuel m ((m + 1) / 10) ((m + 1) / 10) (by omega) le_rfl]
    rfl

theorem digitChar_isDigit {n : Nat} (h : n < 10) : (Nat.digitChar n).isDigit = true := by
  interval_cases n <;> decide

theorem digitVal_digitChar {n : Nat} (h : n < 10) : digitVal (Nat.digitChar n) = n := by
  interval_cases n <;> decide

theorem natDigits_all_isDigit (n : Nat) : (natDigits n).all Char.isDigit = true := by
  induction n using Nat.strong_induction_on with
  | _ n ih =>
    rw [natDigits_eq]
    by_cases h : n < 10
    · simp [h, digitChar_isDigit h]
    · have hlt : n / 10 < n := Nat.div_lt_self (by omega) (by omega)
      simp [h, ih _ hlt, digitChar_isDigit (Nat.mod_lt n (by omega))]

theorem natDigits_length : ∀ k n : Nat, 10 ^ k ≤ n → n < 10 ^ (k + 1) →
    (natDigits n).length = k + 1 := by
  intro k
  induction k with
  | zero =>
    intro n h1 h2
    rw [natDigits_eq]
    have h2' : n < 10 := by simpa using h2
    simp [h2']
  | succ k ih =>
    intro n h1 h2
    have h10 : (10 : Nat) ≤ 10 ^ (k + 1) := by
      calc (10 : Nat) = 10 ^ 1 := (pow_one 10).symm
      _ ≤ 10 ^ (k + 1) := Nat.pow_le_pow_right (by omega) (by omega)
    have h : ¬ n < 10 := by omega
    rw [natDigits_eq]
    simp only [h, if_false]
    have ha : 10 ^ k ≤ n / 10 := by
      rw [Nat.le_div_iff_mul_le (by omega)]
      calc 10 ^ k * 10 = 10 ^ (k + 1) := by ring
      _ ≤ n := h1
    have hb : n / 10 < 10 ^ (k + 1) := by
      rw [Nat.div_lt_iff_lt_mul (by omega)]
      calc n < 10 ^ (k + 1 + 1) := h2
      _ = 10 ^ (k + 1) * 10 := by ring
    rw [List.length_append, ih (n / 10) ha hb]
    simp

theorem natDigits_concat (n : Nat) :
    ∃ front, natDigits n = front ++ [Nat.digitChar (n % 10)] := by
  rw [natDigits_eq]
  by_cases h : n < 10
  · exact ⟨[], by simp [h, Nat.mod_eq_of_lt h]⟩
  · exact ⟨natDigits (n / 10), by simp [h]⟩

theorem natDigits_last_two {n : Nat} (h : 10 ≤ n) :
    (natDigits n).drop ((natDigits n).length - 2) =
      [Nat.digitChar (n / 10 % 10), Nat.digitChar (n % 10)] := by
  obtain ⟨front, hf⟩ := natDigits_concat (n / 10)
  have heq : natDigits n =
      front ++ [Nat.digitChar (n / 10 % 10), Nat.digitChar (n % 10)] := by
    rw [natDigits_eq]
    simp [show ¬ n < 10 by omega, hf]
  rw [heq]
  have hl : (front ++ [Nat.digitChar (n / 10 % 10), Nat.digitChar (n % 10)]).length - 2 =
      front.length := by
    simp
  rw [hl]
  exact List.drop_left front _

theorem jsNatToString_lt10 {n : Nat} (h : n < 10) :
    jsNatToString n = String.mk [Nat.digitChar n] := by
  rw [jsNatToString, natDigits_eq]
  simp [h]

theorem jsNatToString_data (n : Nat) : (jsNatToString n).data = natDigits n := rfl

theorem jsNatToString_length {k n : Nat} (h1 : 10 ^ k ≤ n) (h2 : n < 10 ^ (k + 1)) :
    (jsNatToString n).length = k + 1 :=
  natDigits_length k n h1 h2

/-! Characterisations of the digit-string guard and the weighted sum. -/

theorem isDigit_iff {c : Char} : c.isDigit = true ↔ ('0' ≤ c ∧ c ≤ '9') := by
  simp [Char.isDigit, Char.le_def]

theorem string_length_data (s : String) : s.length = s.data.length := rfl

theorem string_eq_empty_iff {s : String} : s = "" ↔ s.data = [] := by
  constructor
  · intro h; rw [h]
  · intro h; exact String.ext h

theorem not_isEmpty_iff {l : List Char} : (!l.isEmpty) = true ↔ l ≠ [] := by
  cases l <;> simp

theorem isDigitString_iff {s : String} :
    isDigitString s = true ↔ (s ≠ "" ∧ ∀ c ∈ s.data, '0' ≤ c ∧ c ≤ '9') := by
  rw [isDigitString, Bool.and_eq_true, List.all_eq_true, not_isEmpty_iff]
  constructor
  · rintro ⟨h1, h2⟩
    exact ⟨fun he => h1 (string_eq_empty_iff.mp he),
      fun c hc => isDigit_iff.mp (h2 c hc)⟩
  · rintro ⟨h1, h2⟩
    exact ⟨fun he => h1 (string_eq_empty_iff.mpr he),
      fun c hc => isDigit_iff.mpr (h2 c hc)⟩

theorem weightedSumFrom_eq_sum : ∀ (l : List Nat) (i : Nat),
    weightedSumFrom i l =
      ∑ j ∈ Finset.range l.length, (if (i + j) % 2 = 0 then 3 else 1) * l.getD j 0 := by
  intro l
  induction l with
  | nil => intro i; simp [weightedSumFrom]
  | cons a t ih =>
    intro i
    simp only [weightedSumFrom, List.length_cons, Finset.sum_range_succ']
    rw [ih (i + 1)]
    have key : (if i % 2 = 0 then 3 * a else a) =
        (if (i + 0) % 2 = 0 then 3 else 1) * ((a :: t).getD 0 0) := by
      simp only [Nat.add_zero, List.getD_cons_zero]
      split_ifs <;> ring
    rw [key, Nat.add_comm]
    congr 1
    apply Finset.sum_congr rfl
    intro j _
    rw [List.getD_cons_succ, show i + (j + 1) = i + 1 + j by omega]

theorem weightedSumFrom_eq_spec (l : List Nat) : weightedSumFrom 0 l = specWeightedSum l := by
  rw [weightedSumFrom_eq_sum, specWeightedSum]
  simp

theorem getLastD_eq_getD : ∀ (l : List Nat) (d : Nat), l ≠ [] →
    l.getLastD d = l.getD (l.length - 1) d := by
  intro l
  induction l with
  | nil => simp
  | cons a t ih =>
    intro d _
    cases t with
    | nil => rfl
    | cons b t2 =>
      rw [List.getLastD_cons, ih a (by simp)]
      simp only [List.length_cons, Nat.add_sub_cancel]
      have hstep : (a :: b :: t2).getD (t2.length + 1) d = (b :: t2).getD t2.length d :=
        List.getD_cons_succ
      rw [hstep]
      have hb : t2.length < (b :: t2).length := by simp
      rw [List.getD_eq_getElem _ a hb, List.getD_eq_getElem _ d hb]

/-- Claim C2: on every non-empty all-digit string, `calculateGS1CheckDigit`
returns `(10 - (sum mod 10)) mod 10`, where the sum weights the digit at
every even 0-based index by 3 and at every odd index by 1, and the result
is a single digit in `[0, 9]`. -/
theorem calculateGS1CheckDigit_formula (s : String) (hne : s ≠ "")
    (hdig : ∀ c ∈ s.data, '0' ≤ c ∧ c ≤ '9') :
    calculateGS1CheckDigit s =
      Except.ok ((10 - (specWeightedSum (s.data.map digitVal)) % 10) % 10) ∧
    (10 - (specWeightedSum (s.data.map digitVal)) % 10) % 10 ≤ 9 := by
  have hd : isDigitString s = true := isDigitString_iff.mpr ⟨hne, hdig⟩
  constructor
  · rw [calculateGS1CheckDigit, if_pos hd, checkDigitOf, weightedSumFrom_eq_spec]
  · omega

/-- Witness for C2 at the concrete input `"042"`. -/
theorem calculateGS1CheckDigit_formula_witness :
    calculateGS1CheckDigit "042" =
      Except.ok ((10 - (specWeightedSum ("042".data.map digitVal)) % 10) % 10) ∧
    (10 - (specWeightedSum ("042".data.map digitVal)) % 10) % 10 ≤ 9 :=
  calculateGS1CheckDigit_formula "042" (by decide) (by decide)

/-- Claim C3: `calculateGS1CheckDigit` fails (throws `InvalidInputError`,
modelled as `Except.error`) exactly on the string inputs that are empty or
contain a character outside `'0'`-`'9'`; on every other string it succeeds.
(Non-string arguments have no counterpart in the typed embedding.) -/
theorem calculateGS1CheckDigit_error_iff (s : String) :
    (∃ e, calculateGS1CheckDigit s = Except.error e) ↔
      (s = "" ∨ ∃ c ∈ s.data, ¬('0' ≤ c ∧ c ≤ '9')) := by
  by_cases hd : isDigitString s = true
  · rw [calculateGS1CheckDigit, if_pos hd]
    obtain ⟨h1, h2⟩ := isDigitString_iff.mp hd
    constructor
    · rintro ⟨e, he⟩; cases he
    · rintro (h | ⟨c, hc, hbad⟩)
      · exact absurd h h1
      · exact absurd (h2 c hc) hbad
  · rw [calculateGS1CheckDigit, if_neg hd]
    constructor
    · intro _
      by_contra hcon
      push_neg at hcon
      obtain ⟨hne, hall⟩ := hcon
      exact hd (isDigitString_iff.mpr ⟨hne, hall⟩)
    · intro _; exact ⟨"Input must be a string of digits", rfl⟩

/-! The GTIN round-trip. -/

/-- Claim C1 (amended): appending the computed check digit produces a string
accepted by the `validateGTIN` of `src/lib/utils/gs1Utils.js`, which uses
the same even-index-weight-3 convention as `calculateGS1CheckDigit`. -/
theorem gtin_roundtrip_utils (d : String) (h13 : d.length = 13)
    (hdig : ∀ c ∈ d.data, '0' ≤ c ∧ c ≤ '9') :
    ∃ cd, calculateGS1CheckDigit d = Except.ok cd ∧
      validateGTIN (d ++ jsNatToString cd) = true := by
  have hlen13 : d.data.length = 13 := by rw [← string_length_data]; exact h13
  have hne : d ≠ "" := by
    intro h
    rw [string_eq_empty_iff] at h
    rw [h] at hlen13
    simp at hlen13
  have hd : isDigitString d = true := isDigitString_iff.mpr ⟨hne, hdig⟩
  refine ⟨checkDigitOf d, by rw [calculateGS1CheckDigit, if_pos hd], ?_⟩
  have hcd9 : checkDigitOf d < 10 := by
    rw [checkDigitOf]; omega
  have hdata : (d ++ jsNatToString (checkDigitOf d)).data =
      d.data ++ [Nat.digitChar (checkDigitOf d)] := by
    rw [String.data_append, jsNatToString_lt10 hcd9]
  have hall : (d ++ jsNatToString (checkDigitOf d)).data.all Char.isDigit = true := by
    rw [hdata, List.all_append, Bool.and_eq_true, List.all_eq_true, List.all_eq_true]
    exact ⟨fun c hc => isDigit_iff.mpr (hdig c hc),
      fun c hc => by
        simp only [List.mem_singleton] at hc
        rw [hc]
        exact digitChar_isDigit hcd9⟩
  have hlen : (d ++ jsNatToString (checkDigitOf d)).length = 14 := by
    rw [string_length_data, hdata, List.length_append, hlen13]
    rfl
  have hcond : (((d ++ jsNatToString (checkDigitOf d)).length == 14) &&
      (d ++ jsNatToString (checkDigitOf d)).data.all Char.isDigit) = true := by
    rw [Bool.and_eq_true, beq_iff_eq]
    exact ⟨hlen, hall⟩
  rw [validateGTIN, if_pos hcond]
  simp only [hdata, List.map_append, List.map_cons, List.map_nil]
  rw [digitVal_digitChar hcd9, List.getLastD_concat, List.dropLast_concat, beq_iff_eq]
  rfl

/-- Witness for the amended C1 at the all-zero 13-digit string. -/
theorem gtin_roundtrip_utils_witness :
    ∃ cd, calculateGS1CheckDigit "0000000000000" = Except.ok cd ∧
      validateGTIN ("0000000000000" ++ jsNatToString cd) = true :=
  gtin_roundtrip_utils "0000000000000" (by decide) (by decide)

/-- Counterexample for C1 as stated: `calculateGS1CheckDigit` gives check
digit 7 for the 13-digit string `"1000000000000"`, yet the `validateGTIN`
of `src/lib/gs1Utils.js` (which weighs even 0-based indices by 1, not 3)
rejects the resulting 14-digit string. -/
theorem validateGTIN_lib_roundtrip_cex :
    calculateGS1CheckDigit "1000000000000" = Except.ok 7 ∧
    validateGTIN_lib ("1000000000000" ++ jsNatToString 7) = false :=
  ⟨rfl, by decide⟩

/-- Claim C7: the `validateGTIN` of `src/lib/utils/gs1Utils.js` returns true
exactly on the 14-digit strings whose 14th digit equals
`calculateGS1CheckDigit` of the first 13 digits; it returns a boolean (never
throws) on every string, and the two spec boundary cases hold. -/
theorem validateGTIN_spec :
    (∀ s : String, validateGTIN s = true ↔
      (s.length = 14 ∧ (∀ c ∈ s.data, '0' ≤ c ∧ c ≤ '9') ∧
        calculateGS1CheckDigit (String.mk (s.data.take 13)) =
          Except.ok (digitVal (s.data.getD 13 '0')))) ∧
    validateGTIN "00000000000000" = true ∧
    validateGTIN "1234567890123" = false := by
  refine ⟨?_, by decide, by decide⟩
  intro s
  by_cases hc : ((s.length == 14) && s.data.all Char.isDigit) = true
  · have hc2 := hc
    rw [Bool.and_eq_true] at hc2
    obtain ⟨h14b, hallb⟩ := hc2
    have h14 : s.length = 14 := beq_iff_eq.mp h14b
    have hdl : s.data.length = 14 := by rw [← string_length_data]; exact h14
    have hall : ∀ c ∈ s.data, '0' ≤ c ∧ c ≤ '9' :=
      fun c hcmem => isDigit_iff.mp (List.all_eq_true.mp hallb c hcmem)
    have htne : String.mk (s.data.take 13) ≠ "" := by
      intro habs
      have habs2 : s.data.take 13 = [] := string_eq_empty_iff.mp habs
      have hlt : (s.data.take 13).length = 0 := by rw [habs2]; rfl
      rw [List.length_take, hdl] at hlt
      omega
    have htdig : ∀ c ∈ (String.mk (s.data.take 13)).data, '0' ≤ c ∧ c ≤ '9' :=
      fun c hcm => hall c (List.take_subset 13 s.data hcm)
    have hcalc : calculateGS1CheckDigit (String.mk (s.data.take 13)) =
        Except.ok (checkDigitOf (String.mk (s.data.take 13))) := by
      rw [calculateGS1CheckDigit, if_pos (isDigitString_iff.mpr ⟨htne, htdig⟩)]
    have hdrop : (s.data.map digitVal).dropLast = (s.data.take 13).map digitVal := by
      rw [List.dropLast_eq_take, List.length_map, hdl, List.map_take]
    have hlast : (s.data.map digitVal).getLastD 0 = digitVal (s.data.getD 13 '0') := by
      have hne2 : s.data.map digitVal ≠ [] := by
        intro habs
        have := congrArg List.length habs
        rw [List.length_map, hdl] at this
        simp at this
      rw [getLastD_eq_getD _ _ hne2, List.length_map, hdl]
      have hb : 13 < (s.data.map digitVal).length := by rw [List.length_map, hdl]; omega
      have hb2 : 13 < s.data.length := by omega
      rw [List.getD_eq_getElem _ 0 hb, List.getElem_map, List.getD_eq_getElem _ '0' hb2]
    rw [validateGTIN, if_pos hc]
    simp only [hdrop, hlast, hcalc, beq_iff_eq]
    constructor
    · intro hbody
      refine ⟨h14, hall, ?_⟩
      rw [← hbody]
      rfl
    · rintro ⟨-, -, hok⟩
      have hinj := Except.ok.inj hok
      rw [checkDigitOf] at hinj
      exact hinj
  · rw [validateGTIN, if_neg hc]
    constructor
    · intro h; exact Bool.noConfusion h
    · rintro ⟨h14, hall, -⟩
      apply absurd ?_ hc
      rw [Bool.and_eq_true, beq_iff_eq, List.all_eq_true]
      exact ⟨h14, fun c hcm => isDigit_iff.mpr (hall c hcm)⟩

/-! SSCC generation and validation. -/

theorem getD_append_length : ∀ (l : List Char) (c d : Char),
    (l ++ [c]).getD l.length d = c := by
  intro l
  induction l with
  | nil => intro c d; rfl
  | cons a t ih =>
    intro c d
    simp only [List.cons_append, List.length_cons, List.getD_cons_succ]
    exact ih c d

theorem jsNatToString_digits (n : Nat) :
    ∀ c ∈ (jsNatToString n).data, '0' ≤ c ∧ c ≤ '9' := by
  intro c hc
  have hall := natDigits_all_isDigit n
  rw [List.all_eq_true] at hall
  exact isDigit_iff.mp (hall c hc)

theorem serialRef_length (r : RandomDraws) (n : Nat) :
    (serialRef r n).data.length = n := by
  simp [serialRef]

theorem serialRef_digits (r : RandomDraws) (n : Nat) :
    ∀ c ∈ (serialRef r n).data, '0' ≤ c ∧ c ≤ '9' := by
  intro c hc
  have hc2 : c ∈ (List.range n).map (fun i => Nat.digitChar (r.rdigit i).val) := hc
  simp only [List.mem_map] at hc2
  obtain ⟨i, -, rfl⟩ := hc2
  exact isDigit_iff.mp (digitChar_isDigit (r.rdigit i).isLt)

theorem checkDigitOf_lt10 (s : String) : checkDigitOf s < 10 := by
  rw [checkDigitOf]; omega

/-- Appending the computed check digit to any 17-digit string yields a string
accepted by `validateSSCC`. -/
theorem validateSSCC_append_check (base : String) (h17 : base.data.length = 17)
    (hdig : ∀ c ∈ base.data, '0' ≤ c ∧ c ≤ '9') :
    validateSSCC (base ++ jsNatToString (checkDigitOf base)) = true ∧
    (base ++ jsNatToString (checkDigitOf base)).length = 18 := by
  have hcd9 : checkDigitOf base < 10 := checkDigitOf_lt10 base
  have hdata : (base ++ jsNatToString (checkDigitOf base)).data =
      base.data ++ [Nat.digitChar (checkDigitOf base)] := by
    rw [String.data_append, jsNatToString_lt10 hcd9]
  have hlen : (base ++ jsNatToString (checkDigitOf base)).length = 18 := by
    rw [string_length_data, hdata, List.length_append, h17]
    rfl
  refine ⟨?_, hlen⟩
  have hall : (base ++ jsNatToString (checkDigitOf base)).data.all Char.isDigit = true := by
    rw [hdata, List.all_append, Bool.and_eq_true, List.all_eq_true, List.all_eq_true]
    refine ⟨fun c hc => isDigit_iff.mpr (hdig c hc), fun c hc => ?_⟩
    simp only [List.mem_singleton] at hc
    rw [hc]
    exact digitChar_isDigit hcd9
  have hcond : (((base ++ jsNatToString (checkDigitOf base)).length == 18) &&
      (base ++ jsNatToString (checkDigitOf base)).data.all Char.isDigit) = true := by
    rw [Bool.and_eq_true, beq_iff_eq]
    exact ⟨hlen, hall⟩
  rw [validateSSCC, if_pos hcond]
  have htake : (base ++ jsNatToString (checkDigitOf base)).data.take 17 = base.data := by
    rw [hdata, ← h17, List.take_left]
  have hgetd : (base ++ jsNatToString (checkDigitOf base)).data.getD 17 '0' =
      Nat.digitChar (checkDigitOf base) := by
    rw [hdata, ← h17, getD_append_length]
  simp only [htake, hgetd, digitVal_digitChar hcd9, beq_iff_eq]
  rfl

theorem buildExt_eq (eo : Option Nat) (r : RandomDraws) (he : ∀ e ∈ eo, e ≤ 9) :
    ∃ x, x < 10 ∧ buildExt eo r = String.mk [Nat.digitChar x] ∧ ∀ e ∈ eo, x = e := by
  cases eo with
  | none =>
    exact ⟨r.rext.val, r.rext.isLt, jsNatToString_lt10 r.rext.isLt, by simp⟩
  | some e =>
    have he9 : e ≤ 9 := he e (Option.mem_def.mpr rfl)
    refine ⟨e, by omega, ?_, ?_⟩
    · rw [buildExt]
      exact jsNatToString_lt10 (by omega)
    · intro q hq
      exact Option.some.inj (Option.mem_def.mp hq)

theorem buildPfx_facts (po : Option String) (r : RandomDraws)
    (hp : ∀ p ∈ po, p ≠ "" ∧ (∀ c ∈ p.data, '0' ≤ c ∧ c ≤ '9') ∧ p.length ≤ 16)
    (hr1 : 1000000 ≤ r.rpfx) (hr2 : r.rpfx ≤ 9999999) :
    (∀ c ∈ (buildPfx po r).data, '0' ≤ c ∧ c ≤ '9') ∧ (buildPfx po r).length ≤ 16 ∧
      (∀ p ∈ po, buildPfx po r = p) := by
  cases po with
  | none =>
    refine ⟨jsNatToString_digits _, ?_, by simp⟩
    have h7 : (jsNatToString r.rpfx).length = 7 :=
      jsNatToString_length (k := 6) (by norm_num; omega) (by norm_num; omega)
    rw [buildPfx]
    omega
  | some p =>
    obtain ⟨hne, hdig, hlen⟩ := hp p (Option.mem_def.mpr rfl)
    rw [buildPfx, if_neg hne]
    exact ⟨hdig, hlen, fun q hq => Option.some.inj (Option.mem_def.mp hq)⟩

/-- Claim C4: for any digit company prefix of length at most 16 and any
extension digit 0-9 (each optional: omitted values are drawn
pseudo-randomly, the random prefix lying in `[1000000, 9999999]`),
`generateSSCC` returns an 18-character string accepted by `validateSSCC`
whose first character is the extension digit and whose next `len(p)`
characters are the prefix. -/
theorem generateSSCC_spec (po : Option String) (eo : Option Nat) (r : RandomDraws)
    (hp : ∀ p ∈ po, p ≠ "" ∧ (∀ c ∈ p.data, '0' ≤ c ∧ c ≤ '9') ∧ p.length ≤ 16)
    (he : ∀ e ∈ eo, e ≤ 9)
    (hr1 : 1000000 ≤ r.rpfx) (hr2 : r.rpfx ≤ 9999999) :
    ∃ s, generateSSCC po eo r = Except.ok s ∧ validateSSCC s = true ∧ s.length = 18 ∧
      (∀ e ∈ eo, s.data.getD 0 '0' = Nat.digitChar e) ∧
      (∀ p ∈ po, (s.data.drop 1).take p.length = p.data) := by
  obtain ⟨hPdig, hPlen, hPeq⟩ := buildPfx_facts po r hp hr1 hr2
  obtain ⟨x, hx, hExt, hXeq⟩ := buildExt_eq eo r he
  have hSL : ((17 : Int) - ((buildPfx po r).length : Int) - 1).toNat =
      16 - (buildPfx po r).length := by omega
  have hbdata : (ssccBase po eo r).data =
      Nat.digitChar x :: ((buildPfx po r).data ++
        (serialRef r (16 - (buildPfx po r).length)).data) := by
    rw [ssccBase, hExt, hSL]
    simp [String.data_append, List.append_assoc]
  have hPd : (buildPfx po r).data.length = (buildPfx po r).length :=
    (string_length_data _).symm
  have hblen : (ssccBase po eo r).data.length = 17 := by
    rw [hbdata]
    simp only [List.length_cons, List.length_append, serialRef_length]
    omega
  have hbdig : ∀ c ∈ (ssccBase po eo r).data, '0' ≤ c ∧ c ≤ '9' := by
    rw [hbdata]
    intro c hc
    simp only [List.mem_cons, List.mem_append] at hc
    rcases hc with rfl | hc | hc
    · exact isDigit_iff.mp (digitChar_isDigit hx)
    · exact hPdig c hc
    · exact serialRef_digits r _ c hc
  have hbne : ssccBase po eo r ≠ "" := by
    intro h
    rw [string_eq_empty_iff] at h
    rw [h] at hblen
    simp at hblen
  have hcalc : calculateGS1CheckDigit (ssccBase po eo r) =
      Except.ok (checkDigitOf (ssccBase po eo r)) := by
    rw [calculateGS1CheckDigit, if_pos (isDigitString_iff.mpr ⟨hbne, hbdig⟩)]
  obtain ⟨hval, hlen18⟩ := validateSSCC_append_check _ hblen hbdig
  have hcd9 : checkDigitOf (ssccBase po eo r) < 10 := checkDigitOf_lt10 _
  have hsdata : (ssccBase po eo r ++ jsNatToString (checkDigitOf (ssccBase po eo r))).data =
      (ssccBase po eo r).data ++ [Nat.digitChar (checkDigitOf (ssccBase po eo r))] := by
    rw [String.data_append, jsNatToString_lt10 hcd9]
  refine ⟨ssccBase po eo r ++ jsNatToString (checkDigitOf (ssccBase po eo r)),
    ?_, hval, hlen18, ?_, ?_⟩
  · rw [generateSSCC, hcalc]
  · intro e hee
    rw [hsdata, hbdata]
    simp only [List.cons_append, List.getD_cons_zero]
    rw [hXeq e hee]
  · intro p hp2
    have hPp : buildPfx po r = p := hPeq p hp2
    rw [hsdata, hbdata]
    simp only [List.cons_append, List.drop_succ_cons, List.drop_zero]
    rw [List.append_assoc]
    have hlp : p.length = (buildPfx po r).data.length := by rw [hPp, string_length_data]
    rw [hlp, List.take_left, hPp]

/-- Witness for C4 at a concrete prefix, extension digit and draw. -/
theorem generateSSCC_spec_witness :
    ∃ s, generateSSCC (some "1234567") (some 5) rZero = Except.ok s ∧
      validateSSCC s = true ∧ s.length = 18 ∧
      (∀ e ∈ (some 5 : Option Nat), s.data.getD 0 '0' = Nat.digitChar e) ∧
      (∀ p ∈ (some "1234567" : Option String), (s.data.drop 1).take p.length = p.data) :=
  generateSSCC_spec (some "1234567") (some 5) rZero
    (fun p hp => by
      have h : "1234567" = p := Option.some.inj (Option.mem_def.mp hp)
      subst h
      refine ⟨by decide, by decide, by decide⟩)
    (fun e he => by
      have h : 5 = e := Option.some.inj (Option.mem_def.mp he)
      subst h
      decide)
    (by decide) (by decide)

/-- Counterexample for C5 as stated: with a 17-digit company prefix
(`serialLength = -1`), `generateSSCC` does not fail with any error; it
returns a 19-character string. -/
theorem generateSSCC_long_pfx_cex :
    generateSSCC (some "12345678901234567") (some 0) rZero =
      Except.ok "0123456789012345673" := rfl

/-- Claim C5 (amended): `generateSSCC` performs no prefix-length validation;
for a digit prefix with `len(prefix) ≥ 17` the serial loop contributes
nothing and the function returns (without failing) a string of length
`len(prefix) + 2`, which `validateSSCC` rejects. -/
theorem generateSSCC_long_pfx (p : String) (e : Nat) (r : RandomDraws)
    (hne : p ≠ "") (hdig : ∀ c ∈ p.data, '0' ≤ c ∧ c ≤ '9')
    (hlen : 17 ≤ p.length) (he : e ≤ 9) :
    ∃ s, generateSSCC (some p) (some e) r = Except.ok s ∧
      s.length = p.length + 2 ∧ validateSSCC s = false := by
  have hP : buildPfx (some p) r = p := by rw [buildPfx, if_neg hne]
  have hSL : ((17 : Int) - ((buildPfx (some p) r).length : Int) - 1).toNat = 0 := by
    rw [hP]; omega
  have hE : buildExt (some e) r = String.mk [Nat.digitChar e] := by
    rw [buildExt]
    exact jsNatToString_lt10 (by omega)
  have hbdata : (ssccBase (some p) (some e) r).data = Nat.digitChar e :: p.data := by
    rw [ssccBase, hE, hSL, hP]
    simp [String.data_append, serialRef]
  have hpd : p.data.length = p.length := (string_length_data p).symm
  have hblen : (ssccBase (some p) (some e) r).data.length = p.length + 1 := by
    rw [hbdata]
    simp only [List.length_cons]
    omega
  have hbdig : ∀ c ∈ (ssccBase (some p) (some e) r).data, '0' ≤ c ∧ c ≤ '9' := by
    rw [hbdata]
    intro c hc
    rcases List.mem_cons.mp hc with rfl | hc
    · exact isDigit_iff.mp (digitChar_isDigit (by omega))
    · exact hdig c hc
  have hbne : ssccBase (some p) (some e) r ≠ "" := by
    intro h
    rw [string_eq_empty_iff] at h
    rw [h] at hblen
    simp at hblen
  have hcalc : calculateGS1CheckDigit (ssccBase (some p) (some e) r) =
      Except.ok (checkDigitOf (ssccBase (some p) (some e) r)) := by
    rw [calculateGS1CheckDigit, if_pos (isDigitString_iff.mpr ⟨hbne, hbdig⟩)]
  have hcd9 : checkDigitOf (ssccBase (some p) (some e) r) < 10 := checkDigitOf_lt10 _
  set s := ssccBase (some p) (some e) r ++
    jsNatToString (checkDigitOf (ssccBase (some p) (some e) r)) with hs
  have hslen : s.length = p.length + 2 := by
    rw [hs, string_length_data, String.data_append, jsNatToString_lt10 hcd9,
      List.length_append, hblen]
    rfl
  refine ⟨s, by rw [generateSSCC, hcalc], hslen, ?_⟩
  have hcond : ¬(((s.length == 18) && s.data.all Char.isDigit) = true) := by
    intro habs
    rw [Bool.and_eq_true, beq_iff_eq] at habs
    omega
  rw [validateSSCC, if_neg hcond]

/-- Witness for the amended C5 at a concrete 17-digit prefix. -/
theorem generateSSCC_long_pfx_witness :
    ∃ s, generateSSCC (some "12345678901234567") (some 3) rZero = Except.ok s ∧
      s.length = "12345678901234567".length + 2 ∧ validateSSCC s = false :=
  generateSSCC_long_pfx "12345678901234567" 3 rZero
    (by decide) (by decide) (by decide) (by decide)

/-! Field formatting: dates and weights. -/

theorem jsPadStart_length (s : String) (n : Nat) (c : Char) :
    (jsPadStart s n c).length = max n s.length := by
  rw [jsPadStart, string_length_data, String.data_append, List.length_append,
    List.length_replicate]
  have h := string_length_data s
  omega

theorem jsPadStart_digits (s : String) (n : Nat)
    (h : ∀ c ∈ s.data, '0' ≤ c ∧ c ≤ '9') :
    ∀ c ∈ (jsPadStart s n '0').data, '0' ≤ c ∧ c ≤ '9' := by
  intro c hc
  rw [jsPadStart, String.data_append] at hc
  rcases List.mem_append.mp hc with hc | hc
  · have : c = '0' := List.eq_of_mem_replicate hc
    rw [this]
    exact ⟨le_refl _, by decide⟩
  · exact h c hc

theorem jsNatToString_len_le2 {v : Nat} (h : v < 100) :
    (jsNatToString v).length ≤ 2 := by
  by_cases h10 : v < 10
  · rw [jsNatToString_lt10 h10]
    exact Nat.le_succ 1
  · have := jsNatToString_length (k := 1) (n := v) (by omega) (by norm_num; omega)
    omega

/-- On a year of at least two decimal digits, the `slice(-2)` of the year
string equals the zero-padded two-digit rendering of `year mod 100`. -/
theorem yearSlice_eq_pad {y : Nat} (h : 10 ≤ y) :
    jsSliceLast2 (jsNatToString y) = jsPadStart (jsNatToString (y % 100)) 2 '0' := by
  have hslice : jsSliceLast2 (jsNatToString y) =
      String.mk [Nat.digitChar (y / 10 % 10), Nat.digitChar (y % 10)] := by
    rw [jsSliceLast2, jsNatToString_data, natDigits_last_two h]
  rw [hslice]
  by_cases hv : y % 100 < 10
  · have hd0 : y / 10 % 10 = 0 := by omega
    have hmod : y % 100 = y % 10 := by omega
    rw [jsPadStart, jsNatToString_lt10 hv]
    apply String.ext
    rw [String.data_append]
    simp only [List.replicate]
    have : y % 100 % 10 = y % 100 := Nat.mod_eq_of_lt hv
    rw [hd0, ← hmod]
    rfl
  · have hge : 10 ≤ y % 100 := by omega
    have hlt : y % 100 < 100 := Nat.mod_lt _ (by omega)
    have h2 : (jsNatToString (y % 100)).length = 2 :=
      jsNatToString_length (k := 1) (by omega) (by norm_num; omega)
    have hdigits : natDigits (y % 100) =
        [Nat.digitChar (y % 100 / 10), Nat.digitChar (y % 100 % 10)] := by
      rw [natDigits_eq]
      have hq : y % 100 / 10 < 10 := by omega
      simp [show ¬ y % 100 < 10 by omega, natDigits_eq (y % 100 / 10), hq]
    rw [jsPadStart, h2]
    apply String.ext
    rw [String.data_append]
    simp only [Nat.sub_self, List.replicate, List.nil_append]
    rw [jsNatToString_data, hdigits]
    have hA : y % 100 / 10 = y / 10 % 10 := by omega
    have hB : y % 100 % 10 = y % 10 := by omega
    rw [hA, hB]

/-- Counterexample for C8 as stated: a parseable date in year 7 produces a
5-character string (the year part is not zero-padded by `slice(-2)`), not a
6-character one. -/
theorem formatGS1Date_small_year_cex :
    formatGS1Date (some ⟨7, 2, 5⟩) = "70305" ∧
    ¬((formatGS1Date (some ⟨7, 2, 5⟩)).length = 6) := by
  constructor
  · rfl
  · decide

/-- Claim C8 (amended): `formatGS1Date` returns `""` on a falsy or
unparseable argument; on a date with local fields `(y, m0, d)` it returns
year-slice ++ padded month ++ padded day, which for `y ≥ 10` is the
6-character all-digit string `pad2 (y mod 100) ++ pad2 (m0+1) ++ pad2 d`
(for years 0-9 the year contributes a single character); 2024-03-05 yields
`"240305"`. -/
theorem formatGS1Date_spec (y m0 d : Nat) (hy : 10 ≤ y) (hm : m0 < 12)
    (hd1 : 1 ≤ d) (hd2 : d ≤ 31) :
    formatGS1Date (some ⟨y, m0, d⟩) =
      jsPadStart (jsNatToString (y % 100)) 2 '0' ++
      jsPadStart (jsNatToString (m0 + 1)) 2 '0' ++
      jsPadStart (jsNatToString d) 2 '0' ∧
    (formatGS1Date (some ⟨y, m0, d⟩)).length = 6 ∧
    (∀ c ∈ (formatGS1Date (some ⟨y, m0, d⟩)).data, '0' ≤ c ∧ c ≤ '9') ∧
    formatGS1Date none = "" ∧
    formatGS1Date (some ⟨2024, 2, 5⟩) = "240305" := by
  have hmain : formatGS1Date (some ⟨y, m0, d⟩) =
      jsPadStart (jsNatToString (y % 100)) 2 '0' ++
      jsPadStart (jsNatToString (m0 + 1)) 2 '0' ++
      jsPadStart (jsNatToString d) 2 '0' := by
    rw [formatGS1Date, yearSlice_eq_pad hy]
  refine ⟨hmain, ?_, ?_, rfl, rfl⟩
  · rw [hmain, String.length_append, String.length_append,
      jsPadStart_length, jsPadStart_length, jsPadStart_length]
    have l1 := jsNatToString_len_le2 (v := y % 100) (by omega)
    have l2 := jsNatToString_len_le2 (v := m0 + 1) (by omega)
    have l3 := jsNatToString_len_le2 (v := d) (by omega)
    omega
  · rw [hmain]
    intro c hc
    rw [String.data_append, String.data_append] at hc
    rcases List.mem_append.mp hc with hc | hc
    · rcases List.mem_append.mp hc with hc | hc
      · exact jsPadStart_digits _ _ (jsNatToString_digits _) c hc
      · exact jsPadStart_digits _ _ (jsNatToString_digits _) c hc
    · exact jsPadStart_digits _ _ (jsNatToString_digits _) c hc

/-- Witness for the amended C8 at the local calendar date 2024-03-05. -/
theorem formatGS1Date_spec_witness :
    formatGS1Date (some ⟨2024, 2, 5⟩) =
      jsPadStart (jsNatToString (2024 % 100)) 2 '0' ++
      jsPadStart (jsNatToString (2 + 1)) 2 '0' ++
      jsPadStart (jsNatToString 5) 2 '0' ∧
    (formatGS1Date (some ⟨2024, 2, 5⟩)).length = 6 ∧
    (∀ c ∈ (formatGS1Date (some ⟨2024, 2, 5⟩)).data, '0' ≤ c ∧ c ≤ '9') ∧
    formatGS1Date none = "" ∧
    formatGS1Date (some ⟨2024, 2, 5⟩) = "240305" :=
  formatGS1Date_spec 2024 2 5 (by decide) (by decide) (by decide) (by decide)

/-- Claim C9: `formatGS1Weight` returns `"000000"` for a null, undefined or
non-numeric value; otherwise it returns the decimal representation of
`round(value * 10^decimalPlaces)` left-padded with zeros to width 6, and
whenever that representation fits in 6 characters the result has length
exactly 6. -/
theorem formatGS1Weight_spec :
    (∀ n, formatGS1Weight none n = "000000") ∧
    (∀ (q : Rat) (n : Nat), formatGS1Weight (some q) n =
      jsPadStart (jsIntToString (jsRound (q * (10 : Rat) ^ n))) 6 '0') ∧
    (∀ (q : Rat) (n : Nat),
      (jsIntToString (jsRound (q * (10 : Rat) ^ n))).length ≤ 6 →
      (formatGS1Weight (some q) n).length = 6) := by
  refine ⟨fun n => rfl, fun q n => rfl, fun q n h => ?_⟩
  rw [formatGS1Weight]
  rw [jsPadStart_length]
  omega

/-- Witness for C9: the value 1 with 0 decimal places scales to 1, whose
decimal representation fits in 6 characters, and the formatted field has
length 6. -/
theorem formatGS1Weight_spec_witness :
    (jsIntToString (jsRound ((1 : Rat) * (10 : Rat) ^ (0 : Nat)))).length ≤ 6 ∧
    (formatGS1Weight (some 1) 0).length = 6 := by
  have hr : jsRound ((1 : Rat) * (10 : Rat) ^ (0 : Nat)) = 1 := by
    rw [jsRound]
    norm_num
  constructor
  · rw [hr]
    decide
  · exact formatGS1Weight_spec.2.2 1 0 (by rw [hr]; decide)

/-! AI element-string assembly. -/

/-- Claim C6 is refuted on `createGS1DataMatrix` (spec says the assembled
string never ends with the group separator): with a retained variable-length
element followed by a null-valued one, the returned string ends with
`<GS>`. -/
theorem createGS1DataMatrix_trailing_sep :
    createGS1DataMatrix [("10", some "A"), ("99", none)] = "(10)A<GS>" ∧
    jsEndsWith (createGS1DataMatrix [("10", some "A"), ("99", none)]) "<GS>" = true := by
  constructor
  · rfl
  · decide

theorem string_append_assoc (a b c : String) : (a ++ b) ++ c = a ++ (b ++ c) := by
  apply String.ext
  simp [String.data_append]

theorem string_empty_append (s : String) : "" ++ s = s := by
  apply String.ext
  simp [String.data_append]

theorem assembleRaw_go (env : JSEnv) :
    ∀ (data : List (String × Option String)) (s : String) (w : List String),
      List.foldl (assembleStep env) (s, w) data =
        (s ++ (assembleRaw env data).1, w ++ (assembleRaw env data).2) := by
  intro data
  induction data with
  | nil =>
    intro s w
    simp [assembleRaw]
  | cons kv t ih =>
    intro s w
    rw [List.foldl_cons]
    rw [ih]
    have hcons : assembleRaw env (kv :: t) =
        ((assembleStep env ("", []) kv).1 ++ (assembleRaw env t).1,
         (assembleStep env ("", []) kv).2 ++ (assembleRaw env t).2) := by
      rw [assembleRaw, List.foldl_cons, ih]
    rw [hcons]
    cases hkv : kv.2 with
    | none =>
      simp [assembleStep, hkv, string_empty_append]
    | some v =>
      simp [assembleStep, hkv, string_empty_append, string_append_assoc,
        List.append_assoc]

theorem assembleRaw_append (env : JSEnv) (xs ys : List (String × Option String)) :
    assembleRaw env (xs ++ ys) =
      ((assembleRaw env xs).1 ++ (assembleRaw env ys).1,
       (assembleRaw env xs).2 ++ (assembleRaw env ys).2) := by
  rw [assembleRaw, List.foldl_append, ← assembleRaw]
  exact assembleRaw_go env ys _ _

theorem mem_variableLengthAIs_digit {a : String} (h : a ∈ variableLengthAIs) :
    isDigitString a = true := by
  simp only [variableLengthAIs, List.mem_cons, List.not_mem_nil, or_false] at h
  rcases h with rfl | rfl | rfl | rfl | rfl | rfl | rfl | rfl | rfl | rfl | rfl | rfl |
    rfl | rfl | rfl | rfl | rfl | rfl | rfl | rfl | rfl | rfl | rfl | rfl <;> decide

/-- On a key outside the `switch` cases, `cgbsElem` reduces to the default
branch: numeric pass-through or warn-and-skip. -/
theorem cgbsElem_unknown (env : JSEnv) (k v : String)
    (hk : jsToUpper k ∉ knownGS1Keys) :
    cgbsElem env k v =
      if isDigitString (jsToUpper k)
      then ("(" ++ jsToUpper k ++ ")" ++ v ++
        (if isVariableLengthAI (jsToUpper k) then "<GS>" else ""), none)
      else ((if isVariableLengthAI (jsToUpper k) then "<GS>" else ""),
        some ("Unknown GS1 AI: " ++ jsToUpper k)) := by
  simp only [knownGS1Keys, List.mem_cons, List.not_mem_nil, or_false, not_or] at hk
  obtain ⟨h1, h2, h3, h4, h5, h6, h7, h8, h9⟩ := hk
  rw [cgbsElem]
  simp only [if_neg h1, if_neg h2, if_neg h3, if_neg h4, if_neg h5, if_neg h6,
    if_neg h7, if_neg h8, if_neg h9]
  cases hig : isDigitString (jsToUpper k) <;> simp [hig]

/-- Claim C10: when `createGS1BarcodeString` meets an element whose
(uppercased) key is none of the known switch cases, a purely numeric key is
passed through verbatim as `(ai)value` (plus the variable-length separator
the loop appends), while a non-numeric key only logs a recoverable warning
and contributes nothing: the assembled string equals the one without that
element and the warning is inserted at the element's position. -/
theorem createGS1BarcodeString_unknown_keys (env : JSEnv) (k v : String)
    (pre post : List (String × Option String)) (hk : jsToUpper k ∉ knownGS1Keys) :
    (isDigitString (jsToUpper k) = true →
      assembleRaw env [(k, some v)] =
        ("(" ++ jsToUpper k ++ ")" ++ v ++
          (if isVariableLengthAI (jsToUpper k) then "<GS>" else ""), [])) ∧
    (isDigitString (jsToUpper k) = false →
      (createGS1BarcodeString env (pre ++ (k, some v) :: post)).1 =
        (createGS1BarcodeString env (pre ++ post)).1 ∧
      (createGS1BarcodeString env (pre ++ (k, some v) :: post)).2 =
        (assembleRaw env pre).2 ++
          ("Unknown GS1 AI: " ++ jsToUpper k) :: (assembleRaw env post).2) := by
  constructor
  · intro hd
    simp only [assembleRaw, List.foldl_cons, List.foldl_nil, assembleStep]
    rw [cgbsElem_unknown env k v hk, if_pos hd]
    simp [string_empty_append]
  · intro hd
    have hvl : isVariableLengthAI (jsToUpper k) = false := by
      by_contra habs
      rw [Bool.not_eq_false, isVariableLengthAI] at habs
      have hmem : jsToUpper k ∈ variableLengthAIs := by simpa using habs
      rw [mem_variableLengthAIs_digit hmem] at hd
      exact Bool.noConfusion hd
    have hmid : assembleRaw env [(k, some v)] =
        ("", ["Unknown GS1 AI: " ++ jsToUpper k]) := by
      simp only [assembleRaw, List.foldl_cons, List.foldl_nil, assembleStep]
      rw [cgbsElem_unknown env k v hk,
        if_neg (by rw [hd]; exact fun h => Bool.noConfusion h), hvl]
      simp [string_empty_append]
    have hsw : assembleRaw env (pre ++ (k, some v) :: post) =
        ((assembleRaw env pre).1 ++ (assembleRaw env post).1,
         (assembleRaw env pre).2 ++
           ("Unknown GS1 AI: " ++ jsToUpper k) :: (assembleRaw env post).2) := by
      rw [show (k, some v) :: post = [(k, some v)] ++ post from rfl,
        assembleRaw_append env pre ([(k, some v)] ++ post),
        assembleRaw_append env [(k, some v)] post, hmid]
      simp [string_empty_append]
    have hflat : assembleRaw env (pre ++ post) =
        ((assembleRaw env pre).1 ++ (assembleRaw env post).1,
         (assembleRaw env pre).2 ++ (assembleRaw env post).2) :=
      assembleRaw_append env pre post
    constructor
    · rw [createGS1BarcodeString, createGS1BarcodeString, hsw, hflat]
    · rw [show (createGS1BarcodeString env (pre ++ (k, some v) :: post)).2 =
        (assembleRaw env (pre ++ (k, some v) :: post)).2 from rfl, hsw]

/-- Witness for C10: the unknown numeric key `"95"` is passed through
verbatim, and the hypothesis that `"95"` is not a known switch key holds. -/
theorem createGS1BarcodeString_unknown_keys_witness :
    (jsToUpper "95" ∉ knownGS1Keys) ∧
    assembleRaw envW [("95", some "X")] =
      ("(" ++ jsToUpper "95" ++ ")" ++ "X" ++
        (if isVariableLengthAI (jsToUpper "95") then "<GS>" else ""), []) :=
  ⟨by decide,
    (createGS1BarcodeString_unknown_keys envW "95" "X" [] [] (by decide)).1 (by decide)⟩

end GS1
